import Mathlib

/-
Verification of the audio framing, buffering and duplex-streaming pipeline.

The development shallowly embeds the relevant program parts:

  * AudioPlayerAsync (azure_voice_live.py): the thread-safe playback queue
    driven by the output-device callback. Chunks are lists of int16 sample
    values (modelled as Int); the queue is a list of chunks.
  * chunk_pcm_20ms / pcm_to_wav / stream_to_azure_and_back (server.py):
    framing of raw PCM byte buffers, WAV container construction, and the
    batch relay's outbound message trace and delta accumulation loop.
  * receive_audio_and_playback (azure_voice_live.py): the inbound event
    loop with its item-id tracking, decode-failure handling and
    response.done turn boundary.
  * main (azure_voice_live.py): which tasks the live relay cancels after
    its first-completed wait.

Bytes are modelled as natural numbers (callers only ever supply values
below 256); machine-level wrap-around does not arise in the modelled code
paths, which only slice, concatenate and table-look-up byte sequences.
-/

namespace Lingu

/-! ## PlaybackBuffer (AudioPlayerAsync, azure_voice_live.py lines 191-235) -/

/-- A queued audio chunk: int16 samples, as stored by np.frombuffer. -/
abbrev Chunk := List Int

/-- The playback queue: self.queue, a list of pending chunks. -/
abbrev Queue := List Chunk

/-- The while loop of AudioPlayerAsync.callback (lines 207-212), in
recursive form.  The Nat argument is the number of samples still needed,
i.e. frames - len(data) of the source; the returned pair is the samples
gathered from the queue and the remaining queue.  Each iteration pops the
head chunk, takes at most the needed leading samples, and re-inserts a
strict remainder at the queue head (in which case the loop exits because
data is full, matching the immediate return here). -/
def callbackLoop : Queue → Nat → Chunk × Queue
  | [], _ => ([], [])
  | item :: rest, needed =>
    if needed = 0 then ([], item :: rest)
    else if needed < item.length then (item.take needed, item.drop needed :: rest)
    else
      let r := callbackLoop rest (needed - item.length)
      (item ++ r.1, r.2)

/-- AudioPlayerAsync.callback (lines 204-215): gather up to frames samples
from the queue, then zero-fill any deficit (line 213-214).  Returns the
samples written to outdata together with the queue left behind. -/
def callback (q : Queue) (frames : Nat) : Chunk × Queue :=
  let r := callbackLoop q frames
  (r.1 ++ List.replicate (frames - r.1.length) 0, r.2)

/-- The mutable state of AudioPlayerAsync: the queue and the playing flag. -/
structure PBState where
  queue : Queue
  playing : Bool
  deriving DecidableEq

/-- The state after AudioPlayerAsync.__init__: empty queue, not playing. -/
def initPB : PBState := { queue := [], playing := false }

/-- The chunk-level body of add_data (lines 217-222): append the chunk to
the queue tail and, if not yet playing, start (start() sets playing). -/
def pushChunk (s : PBState) (c : Chunk) : PBState :=
  let s2 : PBState := { s with queue := s.queue ++ [c] }
  if s2.playing then s2 else { s2 with playing := true }

/-- The signed 16-bit sample encoded by two little-endian bytes. -/
def int16OfBytes (b0 b1 : Nat) : Int :=
  if b0 % 256 + 256 * (b1 % 256) < 32768
  then ((b0 % 256 + 256 * (b1 % 256) : Nat) : Int)
  else ((b0 % 256 + 256 * (b1 % 256) : Nat) : Int) - 65536

/-- The int16 sample sequence of a whole-sample byte buffer: the value
np.frombuffer yields when the byte length is even (a trailing odd byte
contributes nothing; np_frombuffer_int16 below rejects that case the way
numpy does). -/
def int16Samples : List Nat → List Int
  | b0 :: b1 :: rest => int16OfBytes b0 b1 :: int16Samples rest
  | _ => []

/-- np.frombuffer(data, dtype=np.int16): reinterpret pairs of bytes as
little-endian signed 16-bit samples; numpy raises ValueError when the
buffer length is not a multiple of the 2-byte item size, modelled as
none. -/
def np_frombuffer_int16 : List Nat → Option (List Int)
  | [] => some []
  | [_] => none
  | b0 :: b1 :: rest =>
    (np_frombuffer_int16 rest).map (fun t => int16OfBytes b0 b1 :: t)

/-- AudioPlayerAsync.add_data (lines 217-222) on raw bytes: none when
np.frombuffer raises (the chunk is then never appended). -/
def add_data (s : PBState) (data : List Nat) : Option PBState :=
  (np_frombuffer_int16 data).map (fun c => pushChunk s c)

theorem np_frombuffer_int16_even : ∀ bs : List Nat, bs.length % 2 = 0 →
    np_frombuffer_int16 bs = some (int16Samples bs)
  | [], _ => rfl
  | [_], h => by simp at h
  | b0 :: b1 :: rest, h => by
    have hr : rest.length % 2 = 0 := by
      simp only [List.length_cons] at h
      omega
    simp [np_frombuffer_int16, int16Samples, np_frombuffer_int16_even rest hr]

theorem np_frombuffer_int16_odd : ∀ bs : List Nat, bs.length % 2 = 1 →
    np_frombuffer_int16 bs = none
  | [], h => by simp at h
  | [_], _ => rfl
  | b0 :: b1 :: rest, h => by
    have hr : rest.length % 2 = 1 := by
      simp only [List.length_cons] at h
      omega
    simp [np_frombuffer_int16, np_frombuffer_int16_odd rest hr]

/-- AudioPlayerAsync.stop (lines 228-232): empty the queue, mark playback
inactive. -/
def stop (_s : PBState) : PBState :=
  { queue := [], playing := false }

/-- The operations a client can perform on the playback buffer. -/
inductive BufOp
  | push (c : Chunk)
  | pull (n : Nat)
  | clear
  deriving DecidableEq

/-- Apply one buffer operation: push is add_data at chunk level, pull is
the device callback (only its queue effect matters for buffer state), and
clear is stop. -/
def applyOp (s : PBState) : BufOp → PBState
  | BufOp.push c => pushChunk s c
  | BufOp.pull n => { s with queue := (callback s.queue n).2 }
  | BufOp.clear => stop s

/-- Run a sequence of buffer operations from the initial state. -/
def runOps (ops : List BufOp) : PBState := ops.foldl applyOp initPB

/-! ### Playback buffer lemmas -/

theorem callbackLoop_fst (q : Queue) (n : Nat) :
    (callbackLoop q n).1 = q.flatten.take n := by
  induction q generalizing n with
  | nil => simp [callbackLoop]
  | cons item rest ih =>
    by_cases h0 : n = 0
    · simp [callbackLoop, h0]
    · by_cases hlt : n < item.length
      · rw [List.flatten_cons,
          List.take_append_of_le_length (Nat.le_of_lt hlt)]
        simp [callbackLoop, h0, hlt]
      · have hle : item.length ≤ n := Nat.le_of_not_lt hlt
        rw [List.flatten_cons, List.take_append_eq_append_take,
          List.take_of_length_le hle]
        simp [callbackLoop, h0, hlt, ih]

theorem callbackLoop_snd (q : Queue) (n : Nat) :
    (callbackLoop q n).2.flatten = q.flatten.drop n := by
  induction q generalizing n with
  | nil => simp [callbackLoop]
  | cons item rest ih =>
    by_cases h0 : n = 0
    · simp [callbackLoop, h0]
    · by_cases hlt : n < item.length
      · rw [List.flatten_cons,
          List.drop_append_of_le_length (Nat.le_of_lt hlt)]
        simp [callbackLoop, h0, hlt]
      · have hle : item.length ≤ n := Nat.le_of_not_lt hlt
        rw [List.flatten_cons, List.drop_append_eq_append_drop,
          List.drop_of_length_le hle]
        simp [callbackLoop, h0, hlt, ih]

theorem callbackLoop_fst_length (q : Queue) (n : Nat) :
    (callbackLoop q n).1.length = min n q.flatten.length := by
  rw [callbackLoop_fst, List.length_take]

/-- The callback loop never leaves a zero-length chunk behind: chunks it
re-inserts are strict remainders, and the chunks it does not touch come
from the original queue. -/
theorem callbackLoop_snd_nonempty (q : Queue) (n : Nat)
    (hq : ∀ c ∈ q, c ≠ []) : ∀ c ∈ (callbackLoop q n).2, c ≠ [] := by
  induction q generalizing n with
  | nil => simp [callbackLoop]
  | cons item rest ih =>
    intro c hc
    by_cases h0 : n = 0
    · simp [callbackLoop, h0] at hc
      rcases hc with hc | hc
      · exact hq c (by simp [hc])
      · exact hq c (List.mem_cons_of_mem _ hc)
    · by_cases hlt : n < item.length
      · simp [callbackLoop, h0, hlt] at hc
        rcases hc with hc | hc
        · subst hc
          intro hnil
          have := List.drop_eq_nil_iff.mp hnil
          omega
        · exact hq c (List.mem_cons_of_mem _ hc)
      · simp [callbackLoop, h0, hlt] at hc
        exact ih (n - item.length) (fun d hd => hq d (List.mem_cons_of_mem _ hd)) c hc

theorem pushChunk_queue (s : PBState) (c : Chunk) :
    (pushChunk s c).queue = s.queue ++ [c] := by
  by_cases h : s.playing <;> simp [pushChunk, h]

/-- Invariant preservation for runs starting from any state whose queue has
no empty chunk, provided every pushed chunk is nonempty. -/
theorem foldl_applyOp_nonempty (ops : List BufOp) (s : PBState)
    (hs : ∀ c ∈ s.queue, c ≠ [])
    (hops : ∀ op ∈ ops, ∀ c : Chunk, op = BufOp.push c → c ≠ []) :
    ∀ c ∈ (ops.foldl applyOp s).queue, c ≠ [] := by
  induction ops generalizing s with
  | nil => exact hs
  | cons op rest ih =>
    have hrest : ∀ op2 ∈ rest, ∀ c : Chunk, op2 = BufOp.push c → c ≠ [] :=
      fun op2 h2 => hops op2 (List.mem_cons_of_mem _ h2)
    have hstep : ∀ c ∈ (applyOp s op).queue, c ≠ [] := by
      cases op with
      | push c0 =>
        intro c hc
        rw [applyOp, pushChunk_queue] at hc
        rcases List.mem_append.mp hc with hc | hc
        · exact hs c hc
        · have : c = c0 := by simpa using hc
          subst this
          exact hops (BufOp.push c) (List.mem_cons_self _ _) c rfl
      | pull n =>
        intro c hc
        exact callbackLoop_snd_nonempty s.queue n hs c hc
      | clear =>
        intro c hc
        simp [applyOp, stop] at hc
    exact ih (applyOp s op) hstep hrest

/-! ### Claims about the playback buffer -/

/-- C1: for every queue state and requested sample count n, the
output-device callback returns exactly n samples — the leading min(n,
total queued) samples of the concatenated queue followed by a zero-filled
deficit — and leaves exactly the remaining suffix of the queued samples in
order; in particular after push(c1); push(c2) a pull of n < len(c1)
leaves the remainder of c1 at the queue head followed by c2. -/
theorem claim_C1_pull (q : Queue) (n : Nat) :
    ((callback q n).1.length = n)
    ∧ ((callback q n).1
        = q.flatten.take n ++ List.replicate (n - q.flatten.length) 0)
    ∧ ((callback q n).2.flatten = q.flatten.drop n)
    ∧ (∀ c1 c2 : Chunk, n < c1.length →
        callback [c1, c2] n = (c1.take n, [c1.drop n, c2])) := by
  refine ⟨?_, ?_, ?_, ?_⟩
  · have h := callbackLoop_fst_length q n
    simp only [callback, List.length_append, List.length_replicate, h]
    omega
  · have h := callbackLoop_fst q n
    simp only [callback, h, List.length_take]
    rw [show n - min n q.flatten.length = n - q.flatten.length by omega]
  · simp only [callback]
    exact callbackLoop_snd q n
  · intro c1 c2 hlt
    by_cases h0 : n = 0
    · subst h0
      simp [callback, callbackLoop]
    · have hloop : callbackLoop [c1, c2] n = (c1.take n, [c1.drop n, c2]) := by
        simp [callbackLoop, h0, hlt]
      simp [callback, hloop, List.length_take, Nat.min_eq_left (Nat.le_of_lt hlt)]

theorem claim_C1_pull_witness :
    (2 < ([1, 2, 3] : Chunk).length)
    ∧ callback [[1, 2, 3], [4]] 2 = ([1, 2], [[3], [4]]) :=
  ⟨by decide, (claim_C1_pull [[1, 2, 3], [4]] 2).2.2.2 [1, 2, 3] [4] (by decide)⟩

/-- C6 (amended): provided every pushed chunk is nonempty, every state
reachable from the initial empty state by push/pull/clear operations has
no zero-length chunk in its queue.  (As stated the claim fails: add_data
appends whatever chunk it is given, so pushing an empty chunk puts an
empty chunk in the queue — see the counterexample.) -/
theorem claim_C6_no_empty_chunks (ops : List BufOp)
    (h : ops.all (fun op => match op with
          | BufOp.push c => !c.isEmpty
          | _ => true) = true) :
    (runOps ops).queue.all (fun c => !c.isEmpty) = true := by
  rw [List.all_eq_true]
  have hops : ∀ op ∈ ops, ∀ c : Chunk, op = BufOp.push c → c ≠ [] := by
    intro op hop c hc
    subst hc
    have := List.all_eq_true.mp h _ hop
    simpa [List.isEmpty_iff] using this
  have hinv := foldl_applyOp_nonempty ops initPB (by simp [initPB]) hops
  intro c hc
  simpa [List.isEmpty_iff] using hinv c hc

theorem claim_C6_witness :
    ([BufOp.push [5], BufOp.pull 1, BufOp.push [2, 3], BufOp.pull 2].all
        (fun op => match op with
          | BufOp.push c => !c.isEmpty
          | _ => true) = true)
    ∧ ((runOps [BufOp.push [5], BufOp.pull 1, BufOp.push [2, 3],
          BufOp.pull 2]).queue.all (fun c => !c.isEmpty) = true) :=
  ⟨by decide, claim_C6_no_empty_chunks _ (by decide)⟩

/-- C6 counterexample: pushing an empty chunk (add_data with an empty
byte buffer, as happens when a delta event has no payload) is a reachable
operation sequence that leaves a zero-length chunk in the queue, so the
claim as stated is false. -/
theorem claim_C6_counterexample :
    ([] : Chunk) ∈ (runOps [BufOp.push []]).queue := by
  decide

/-- C7: clear_and_stop (stop) empties the queue and marks playback
inactive, and an immediately following pull(n) yields exactly n samples,
all zero, from the then-empty queue. -/
theorem claim_C7_clear_then_silence (s : PBState) (n : Nat) :
    ((stop s).queue = [])
    ∧ ((stop s).playing = false)
    ∧ (callback (stop s).queue n = (List.replicate n 0, [])) := by
  refine ⟨rfl, rfl, ?_⟩
  simp [stop, callback, callbackLoop]

/-! ## Framing (server.py lines 8-26) -/

/-- AUDIO_SR = 24000 (server.py line 8). -/
def AUDIO_SR : Nat := 24000

/-- FRAME_MS = 20 (server.py line 9). -/
def FRAME_MS : Nat := 20

/-- SAMPLES_PER_FRAME = int(AUDIO_SR * (FRAME_MS/1000.0)) = 480
(server.py line 10). -/
def SAMPLES_PER_FRAME : Nat := AUDIO_SR * FRAME_MS / 1000

/-- BYTES_PER_FRAME = SAMPLES_PER_FRAME * 2 = 960, int16 mono
(server.py line 11). -/
def BYTES_PER_FRAME : Nat := SAMPLES_PER_FRAME * 2

/-- The padding step of chunk_pcm_20ms (server.py lines 23-25): if the
byte length is not a whole number of frames, extend with zero bytes to the
next frame boundary. -/
def padPcm (pcm : List Nat) : List Nat :=
  if pcm.length % BYTES_PER_FRAME ≠ 0
  then pcm ++ List.replicate (BYTES_PER_FRAME - pcm.length % BYTES_PER_FRAME) 0
  else pcm

/-- chunk_pcm_20ms (server.py lines 22-26): after padding, the slices
pcm[i:i+BYTES_PER_FRAME] for i in range(0, len(pcm), BYTES_PER_FRAME);
that range has ceil(len/BYTES_PER_FRAME) indices. -/
def chunk_pcm_20ms (pcm : List Nat) : List (List Nat) :=
  let padded := padPcm pcm
  (List.range ((padded.length + (BYTES_PER_FRAME - 1)) / BYTES_PER_FRAME)).map
    (fun i => (padded.drop (i * BYTES_PER_FRAME)).take BYTES_PER_FRAME)

/-! ### Framing lemmas -/

theorem padPcm_eq_append (pcm : List Nat) :
    padPcm pcm
      = pcm ++ List.replicate
          ((BYTES_PER_FRAME - pcm.length % BYTES_PER_FRAME) % BYTES_PER_FRAME) 0 := by
  have hB : BYTES_PER_FRAME = 960 := rfl
  unfold padPcm
  by_cases h : pcm.length % BYTES_PER_FRAME = 0
  · rw [if_neg (by simp [h]), h]
    simp
  · rw [if_pos h]
    congr 2
    rw [hB] at h ⊢
    omega

theorem padPcm_length (pcm : List Nat) :
    (padPcm pcm).length
      = (pcm.length + (BYTES_PER_FRAME - 1)) / BYTES_PER_FRAME * BYTES_PER_FRAME := by
  have hB : BYTES_PER_FRAME = 960 := rfl
  rw [padPcm_eq_append, List.length_append, List.length_replicate, hB]
  omega

/-- Concatenating the first k fixed-size slices of a list recovers its
first k*F elements. -/
theorem slices_flatten (F k : Nat) (l : List Nat) :
    ((List.range k).map (fun i => (l.drop (i * F)).take F)).flatten
      = l.take (k * F) := by
  induction k with
  | zero => simp
  | succ m ih =>
    rw [List.range_succ, List.map_append, List.flatten_append, ih]
    simp only [List.map_cons, List.map_nil, List.flatten_cons, List.flatten_nil,
      List.append_nil]
    rw [Nat.succ_mul, List.take_add]

/-- Each of the k fixed-size slices of a list of length k*F has length
exactly F. -/
theorem slices_length (F k : Nat) (l : List Nat) (hlen : l.length = k * F) :
    ((List.range k).map (fun i => (l.drop (i * F)).take F)).map List.length
      = List.replicate k F := by
  rw [List.map_map]
  have hcong : ∀ i ∈ List.range k,
      (List.length ∘ fun i => (l.drop (i * F)).take F) i = (fun _ => F) i := by
    intro i hi
    have h1 : i < k := List.mem_range.mp hi
    have h2 : (i + 1) * F ≤ k * F := Nat.mul_le_mul_right F h1
    rw [Nat.succ_mul] at h2
    simp only [Function.comp_apply, List.length_take, List.length_drop, hlen]
    omega
  rw [List.map_congr_left hcong, List.map_const', List.length_range]

theorem chunk_pcm_20ms_flatten (pcm : List Nat) :
    (chunk_pcm_20ms pcm).flatten = padPcm pcm := by
  have hB : BYTES_PER_FRAME = 960 := rfl
  have hlen := padPcm_length pcm
  unfold chunk_pcm_20ms
  rw [slices_flatten]
  have hmul : ((padPcm pcm).length + (BYTES_PER_FRAME - 1)) / BYTES_PER_FRAME
      * BYTES_PER_FRAME = (padPcm pcm).length := by
    rw [hB] at hlen ⊢
    omega
  rw [hmul, List.take_length]

theorem chunk_pcm_20ms_lengths (pcm : List Nat) :
    (chunk_pcm_20ms pcm).map List.length
      = List.replicate ((pcm.length + (BYTES_PER_FRAME - 1)) / BYTES_PER_FRAME)
          BYTES_PER_FRAME := by
  have hB : BYTES_PER_FRAME = 960 := rfl
  have hlen := padPcm_length pcm
  have hcount : ((padPcm pcm).length + (BYTES_PER_FRAME - 1)) / BYTES_PER_FRAME
      = (pcm.length + (BYTES_PER_FRAME - 1)) / BYTES_PER_FRAME := by
    rw [hB] at hlen ⊢
    omega
  unfold chunk_pcm_20ms
  rw [slices_length BYTES_PER_FRAME _ _ (by rw [hcount]; exact hlen), hcount]

theorem chunk_pcm_20ms_count (pcm : List Nat) :
    (chunk_pcm_20ms pcm).length
      = (pcm.length + (BYTES_PER_FRAME - 1)) / BYTES_PER_FRAME := by
  have h := chunk_pcm_20ms_lengths pcm
  have := congrArg List.length h
  simpa using this

/-! ### Claims about framing -/

/-- C2: on a whole-sample PCM buffer of Ls 16-bit samples, chunk_pcm_20ms
produces exactly ceil(Ls/480) frames, each of exactly 480 samples (960
bytes), the concatenation of the frames truncated to the input length is
the input, and a length-zero input gives no frames. -/
theorem claim_C2_framing (pcm : List Nat) (Ls : Nat) (h : pcm.length = 2 * Ls) :
    ((chunk_pcm_20ms pcm).length
        = (Ls + (SAMPLES_PER_FRAME - 1)) / SAMPLES_PER_FRAME)
    ∧ ((chunk_pcm_20ms pcm).map List.length
        = List.replicate ((Ls + (SAMPLES_PER_FRAME - 1)) / SAMPLES_PER_FRAME)
            (2 * SAMPLES_PER_FRAME))
    ∧ ((chunk_pcm_20ms pcm).flatten.take pcm.length = pcm)
    ∧ (chunk_pcm_20ms [] = []) := by
  have hS : SAMPLES_PER_FRAME = 480 := rfl
  have hB : BYTES_PER_FRAME = 960 := rfl
  have hcnt : (pcm.length + (BYTES_PER_FRAME - 1)) / BYTES_PER_FRAME
      = (Ls + (SAMPLES_PER_FRAME - 1)) / SAMPLES_PER_FRAME := by
    rw [hS, hB, h]
    omega
  refine ⟨?_, ?_, ?_, ?_⟩
  · rw [chunk_pcm_20ms_count, hcnt]
  · rw [chunk_pcm_20ms_lengths, hcnt]
    rfl
  · rw [chunk_pcm_20ms_flatten, padPcm_eq_append,
      List.take_append_of_le_length (Nat.le_refl _), List.take_length]
  · rfl

theorem claim_C2_framing_witness :
    (([7, 8] : List Nat).length = 2 * 1)
    ∧ (((chunk_pcm_20ms [7, 8]).length
          = (1 + (SAMPLES_PER_FRAME - 1)) / SAMPLES_PER_FRAME)
        ∧ ((chunk_pcm_20ms [7, 8]).map List.length
            = List.replicate ((1 + (SAMPLES_PER_FRAME - 1)) / SAMPLES_PER_FRAME)
                (2 * SAMPLES_PER_FRAME))
        ∧ ((chunk_pcm_20ms [7, 8]).flatten.take ([7, 8] : List Nat).length = [7, 8])
        ∧ (chunk_pcm_20ms [] = [])) :=
  ⟨by decide, claim_C2_framing [7, 8] 1 (by decide)⟩

/-- C10: chunk_pcm_20ms is total on arbitrary byte strings, including
those whose length is not a multiple of the 2-byte sample size: every
produced frame has exactly 960 bytes, and the concatenation of the frames
is the input followed by zero padding bytes. -/
theorem claim_C10_framing_total (pcm : List Nat) :
    ((chunk_pcm_20ms pcm).map List.length
        = List.replicate ((pcm.length + (BYTES_PER_FRAME - 1)) / BYTES_PER_FRAME)
            BYTES_PER_FRAME)
    ∧ ((chunk_pcm_20ms pcm).flatten
        = pcm ++ List.replicate
            ((BYTES_PER_FRAME - pcm.length % BYTES_PER_FRAME) % BYTES_PER_FRAME) 0) :=
  ⟨chunk_pcm_20ms_lengths pcm, by rw [chunk_pcm_20ms_flatten, padPcm_eq_append]⟩

/-! ## Base64 (the base64 standard library module, RFC 4648 alphabet).
Models base64.b64encode and base64.b64decode on canonical inputs: bytes
in, ASCII codes of the encoded text out, and conversely. -/

/-- Code of the base64 alphabet character with the given 6-bit index. -/
def b64chr (i : Nat) : Nat :=
  if i < 26 then 65 + i
  else if i < 52 then 97 + (i - 26)
  else if i < 62 then 48 + (i - 52)
  else if i = 62 then 43
  else 47

/-- Index (6-bit) of a base64 alphabet character code. -/
def b64ord (c : Nat) : Nat :=
  if 65 ≤ c ∧ c ≤ 90 then c - 65
  else if 97 ≤ c ∧ c ≤ 122 then c - 97 + 26
  else if 48 ≤ c ∧ c ≤ 57 then c - 48 + 52
  else if c = 43 then 62
  else if c = 47 then 63
  else 0

/-- base64.b64encode: groups of three bytes become four characters, with
'=' (code 61) padding a short final group. -/
def b64encode : List Nat → List Nat
  | [] => []
  | [a] => [b64chr (a / 4), b64chr (a % 4 * 16), 61, 61]
  | [a, b] => [b64chr (a / 4), b64chr (a % 4 * 16 + b / 16), b64chr (b % 16 * 4), 61]
  | a :: b :: c :: rest =>
    b64chr (a / 4) :: b64chr (a % 4 * 16 + b / 16) :: b64chr (b % 16 * 4 + c / 64)
      :: b64chr (c % 64) :: b64encode rest

/-- base64.b64decode on canonically padded text: groups of four characters
become three bytes, fewer when the group carries '=' padding. -/
def b64decode : List Nat → List Nat
  | c1 :: c2 :: c3 :: c4 :: rest =>
    if c3 = 61 then [b64ord c1 * 4 + b64ord c2 / 16]
    else if c4 = 61 then
      [b64ord c1 * 4 + b64ord c2 / 16, b64ord c2 % 16 * 16 + b64ord c3 / 4]
    else
      (b64ord c1 * 4 + b64ord c2 / 16) :: (b64ord c2 % 16 * 16 + b64ord c3 / 4)
        :: (b64ord c3 % 4 * 64 + b64ord c4) :: b64decode rest
  | _ => []

/-! ## Inbound event loop (receive_audio_and_playback,
azure_voice_live.py lines 263-291) -/

/-- One raw websocket message as the loop sees it: either json.loads
raises (undecodable), or it yields an object whose fields are read with
.get (absent fields give none).  Only the type, item_id and delta fields
are consulted; delta holds the base64 text as bytes. -/
inductive RawInbound
  | undecodable
  | decoded (ty : Option String) (item_id : Option String) (delta : Option (List Nat))
  deriving DecidableEq

/-- The loop state: last_audio_item_id (line 264) and the audio player. -/
structure PlaybackLoopState where
  last_audio_item_id : Option String
  player : PBState
  deriving DecidableEq

/-- The state at loop entry (lines 264-265). -/
def initLoopState : PlaybackLoopState :=
  { last_audio_item_id := none, player := initPB }

/-- The item-id update at the head of the delta branch (lines 278-279):
last_audio_item_id becomes the event's item_id when it differs.  This
runs before the delta bytes are touched, so it has taken effect even when
the subsequent np.frombuffer raises. -/
def trackItemId (s : PlaybackLoopState) (item : Option String) : PlaybackLoopState :=
  if item ≠ s.last_audio_item_id then { s with last_audio_item_id := item } else s

/-- Handling of one response.audio.delta event (lines 277-282): update
last_audio_item_id when the delta's item_id differs, then decode the
delta (default empty) and hand the bytes to the player; none when
add_data raises on a byte count that is not whole int16 samples. -/
def applyDelta (s : PlaybackLoopState) (item : Option String)
    (delta : Option (List Nat)) : Option PlaybackLoopState :=
  let s2 := trackItemId s item
  (add_data s2.player (b64decode (delta.getD []))).map
    (fun p => { s2 with player := p })

/-- The outcome of one pass of the inner async-for loop: either a break —
a decode failure (line 275) or a response.done (line 284) — after which
the while True re-enters with the remaining messages, or an uncaught
exception which the blanket except of lines 287-288 turns into the end of
the whole playback activity. -/
inductive InnerResult
  | paused (s : PlaybackLoopState) (rest : List RawInbound)
  | died (s : PlaybackLoopState)
  deriving DecidableEq

/-- One pass of the inner async-for loop (lines 270-284): consume messages
until a break, or die when add_data raises inside the delta branch (the
item-id update of lines 278-279 has already happened then). -/
def innerLoop : List RawInbound → PlaybackLoopState → InnerResult
  | [], s => InnerResult.paused s []
  | RawInbound.undecodable :: rest, s => InnerResult.paused s rest
  | RawInbound.decoded ty item delta :: rest, s =>
    if ty = some "response.audio.delta" then
      match applyDelta s item delta with
      | some s2 => innerLoop rest s2
      | none => InnerResult.died (trackItemId s item)
    else if ty = some "response.done" then
      InnerResult.paused s rest
    else
      innerLoop rest s

/-- The outer while-True loop (line 269) re-enters the inner loop after
every break; an escaped exception ends processing with the state reached.
Each inner pass consumes at least one message, so a fuel of the message
count fully processes the stream; the fuel only renders the recursion
structural. -/
def outerLoop : Nat → List RawInbound → PlaybackLoopState → PlaybackLoopState
  | 0, _, s => s
  | _, [], s => s
  | fuel + 1, m :: rest, s =>
    match innerLoop (m :: rest) s with
    | InnerResult.paused s2 rest2 => outerLoop fuel rest2 s2
    | InnerResult.died s2 => s2

/-- receive_audio_and_playback's processing of a finite inbound stream:
iterate inner passes over the whole stream. -/
def receiveLoop (msgs : List RawInbound) (s : PlaybackLoopState) : PlaybackLoopState :=
  outerLoop msgs.length msgs s

/-- The try/finally of receive_audio_and_playback (lines 268-291): the
loop result, paired with the fact that the finally block ran
audio_player.terminate() (true on every exit path). -/
def receive_audio_and_playback (msgs : List RawInbound) : PlaybackLoopState × Bool :=
  (receiveLoop msgs initLoopState, true)

/-! ### Claims about the inbound event loop -/

/-- C3 (amended): decode failures of inbound messages are logged and
skipped whatever their number — any run of consecutive undecodable
messages, three included, leaves the loop state unchanged and processing
continues with the next inbound message; the code implements no
three-strikes escalation to a fatal error. -/
theorem claim_C3_decode_failures_nonfatal (k : Nat) (rest : List RawInbound)
    (s : PlaybackLoopState) :
    receiveLoop (List.replicate k RawInbound.undecodable ++ rest) s
      = receiveLoop rest s := by
  induction k with
  | zero => rfl
  | succ n ih =>
    have h1 : List.replicate (n + 1) RawInbound.undecodable ++ rest
        = RawInbound.undecodable :: (List.replicate n RawInbound.undecodable ++ rest) :=
      rfl
    rw [h1]
    exact ih

/-- C3 counterexample: after three consecutive decode failures the very
next message is still processed normally (its item id is tracked and its
audio reaches the player), so three consecutive decode failures do not
escalate to a session-fatal transport error as the claim states. -/
theorem claim_C3_counterexample :
    (receiveLoop [RawInbound.undecodable, RawInbound.undecodable,
        RawInbound.undecodable,
        RawInbound.decoded (some "response.audio.delta") (some "a")
          (some [65, 65, 65, 61])] initLoopState).last_audio_item_id = some "a"
    ∧ (receiveLoop [RawInbound.undecodable, RawInbound.undecodable,
        RawInbound.undecodable,
        RawInbound.decoded (some "response.audio.delta") (some "a")
          (some [65, 65, 65, 61])] initLoopState).player.queue = [[0]] := by
  constructor <;> rfl

/-- C4 (amended): on a response.audio.delta event the tracked item id
becomes the delta's item id, differing from the previous one exactly when
the delta carried a new item id (a repeat of the same id produces no
change), and the id update never touches the player; when the delta's
decoded bytes form whole int16 samples they are appended to the player
queue regardless of whether the item id changed and the loop continues
with the next message; when the decoded byte count is odd, np.frombuffer
raises and the playback activity dies with nothing forwarded (the item id
already updated); a response.done event ends the current inner pass at
once, leaving the rest of the stream to the next turn. -/
theorem claim_C4_turn_tracking (s : PlaybackLoopState) (item : Option String)
    (delta : Option (List Nat)) (rest : List RawInbound) :
    ((trackItemId s item).last_audio_item_id = item)
    ∧ ((trackItemId s item).last_audio_item_id ≠ s.last_audio_item_id
        ↔ item ≠ s.last_audio_item_id)
    ∧ ((trackItemId s item).player = s.player)
    ∧ ((b64decode (delta.getD [])).length % 2 = 0 →
        (applyDelta s item delta
          = some { trackItemId s item with
                   player := pushChunk s.player
                     (int16Samples (b64decode (delta.getD []))) })
        ∧ ((pushChunk s.player (int16Samples (b64decode (delta.getD [])))).queue
            = s.player.queue ++ [int16Samples (b64decode (delta.getD []))])
        ∧ (innerLoop (RawInbound.decoded (some "response.audio.delta") item delta :: rest) s
            = innerLoop rest
                { trackItemId s item with
                  player := pushChunk s.player
                    (int16Samples (b64decode (delta.getD []))) }))
    ∧ ((b64decode (delta.getD [])).length % 2 = 1 →
        (applyDelta s item delta = none)
        ∧ (innerLoop (RawInbound.decoded (some "response.audio.delta") item delta :: rest) s
            = InnerResult.died (trackItemId s item)))
    ∧ (innerLoop (RawInbound.decoded (some "response.done") item delta :: rest) s
        = InnerResult.paused s rest) := by
  have hplayer : (trackItemId s item).player = s.player := by
    by_cases h : item = s.last_audio_item_id <;> simp [trackItemId, h]
  have hid : (trackItemId s item).last_audio_item_id = item := by
    by_cases h : item = s.last_audio_item_id <;> simp [trackItemId, h]
  refine ⟨hid, by rw [hid], hplayer, ?_, ?_, ?_⟩
  · intro heven
    have hnp := np_frombuffer_int16_even _ heven
    have happ : applyDelta s item delta
        = some { trackItemId s item with
                 player := pushChunk s.player
                   (int16Samples (b64decode (delta.getD []))) } := by
      simp [applyDelta, add_data, hnp, hplayer]
    refine ⟨happ, pushChunk_queue _ _, ?_⟩
    simp [innerLoop, happ]
  · intro hodd
    have hnp := np_frombuffer_int16_odd _ hodd
    have happ : applyDelta s item delta = none := by
      simp [applyDelta, add_data, hnp]
    refine ⟨happ, ?_⟩
    simp [innerLoop, happ]
  · simp [innerLoop]

theorem claim_C4_turn_tracking_witness :
    ((b64decode ((some [65, 65, 65, 61] : Option (List Nat)).getD [])).length % 2 = 0)
    ∧ (applyDelta initLoopState (some "a") (some [65, 65, 65, 61])
        = some { trackItemId initLoopState (some "a") with
                 player := pushChunk initLoopState.player
                   (int16Samples (b64decode
                     ((some [65, 65, 65, 61] : Option (List Nat)).getD []))) }) :=
  ⟨by decide,
    ((claim_C4_turn_tracking initLoopState (some "a") (some [65, 65, 65, 61]) []).2.2.2.1
        (by decide)).1⟩

/-- C4 counterexample: a response.audio.delta whose decoded payload is a
single byte (the canonical base64 text for one zero byte) is not
forwarded: np.frombuffer raises on the odd-length buffer, the blanket
except ends the playback activity, and the following delta event is never
processed — its item id is never tracked and nothing ever reaches the
queue — so the claim's unconditional forward-and-continue is false. -/
theorem claim_C4_counterexample :
    (applyDelta initLoopState (some "a") (some [65, 65, 61, 61]) = none)
    ∧ ((receiveLoop
          [RawInbound.decoded (some "response.audio.delta") (some "a")
             (some [65, 65, 61, 61]),
           RawInbound.decoded (some "response.audio.delta") (some "b")
             (some [65, 65, 65, 61])] initLoopState).player.queue = [])
    ∧ ((receiveLoop
          [RawInbound.decoded (some "response.audio.delta") (some "a")
             (some [65, 65, 61, 61]),
           RawInbound.decoded (some "response.audio.delta") (some "b")
             (some [65, 65, 65, 61])] initLoopState).last_audio_item_id = some "a") :=
  ⟨rfl, rfl, rfl⟩

/-! ## Batch relay (server.py lines 28-90) -/

/-- An inbound event as the batch relay's loop sees it after json.loads:
only the type and delta fields are consulted; delta holds the base64 text
as bytes when the field is a string, none when absent. -/
structure SrvEvent where
  ty : Option String
  delta : Option (List Nat)
  deriving DecidableEq

/-- One outbound message of stream_to_azure_and_back, in transmission
order: the session.update of lines 44-56, the per-frame
input_audio_buffer.append of lines 58-63 carrying the base64-encoded
frame, then input_audio_buffer.commit and response.create (lines 65-66). -/
inductive OutMsg
  | sessionUpdate
  | append (audio : List Nat)
  | commit
  | responseCreate
  deriving DecidableEq

/-- The accumulation loop of stream_to_azure_and_back (lines 68-75): for
each event, a response.audio.delta whose delta field is truthy (present
and non-empty) has its decoded bytes appended to collected; the loop stops
at the first response.done, or at the end of the stream. -/
def collectDeltas : List SrvEvent → List Nat → List Nat
  | [], acc => acc
  | e :: rest, acc =>
    if e.ty = some "response.audio.delta" then
      match e.delta with
      | some d =>
        if d ≠ [] then collectDeltas rest (acc ++ b64decode d)
        else collectDeltas rest acc
      | none => collectDeltas rest acc
    else if e.ty = some "response.done" then acc
    else collectDeltas rest acc

/-- stream_to_azure_and_back (lines 37-77) as a function of the frames to
send and the inbound events: the ordered outbound message trace and the
returned accumulated bytes. -/
def stream_to_azure_and_back (frames : List (List Nat)) (inbound : List SrvEvent) :
    List OutMsg × List Nat :=
  (OutMsg.sessionUpdate
     :: (frames.map (fun f => OutMsg.append (b64encode f))
         ++ [OutMsg.commit, OutMsg.responseCreate]),
   collectDeltas inbound [])

/-- A 16-bit little-endian field, as the wave module writes it. -/
def u16le (v : Nat) : List Nat := [v % 256, v / 256 % 256]

/-- A 32-bit little-endian field, as the wave module writes it. -/
def u32le (v : Nat) : List Nat :=
  [v % 256, v / 256 % 256, v / 65536 % 256, v / 16777216 % 256]

/-- pcm_to_wav (server.py lines 28-35): the byte output of the wave module
for one mono 16-bit stream at AUDIO_SR — the 44-byte RIFF/WAVE/fmt/data
header followed by the raw PCM bytes.  Field order: RIFF tag, chunk size
36+n, WAVE and fmt tags, fmt size 16, PCM format 1, channels 1, sample
rate, byte rate, block align 2, bits per sample 16, data tag, data size n,
data. -/
def pcm_to_wav (pcm : List Nat) : List Nat :=
  [82, 73, 70, 70] ++ u32le (36 + pcm.length)
    ++ [87, 65, 86, 69, 102, 109, 116, 32] ++ u32le 16
    ++ u16le 1 ++ u16le 1 ++ u32le AUDIO_SR ++ u32le (AUDIO_SR * 2)
    ++ u16le 2 ++ u16le 16
    ++ [100, 97, 116, 97] ++ u32le pcm.length ++ pcm

/-- The tail of the /s2s handler (server.py lines 88-89): the reply bytes
sent to the client are the relay's accumulated PCM wrapped by pcm_to_wav. -/
def s2sReply (frames : List (List Nat)) (inbound : List SrvEvent) : List Nat :=
  pcm_to_wav (stream_to_azure_and_back frames inbound).2

/-! ### Batch relay lemmas -/

/-- The accumulation loop collects the decoded bytes of exactly the delta
events that arrive before the first response.done, in arrival order. -/
theorem collectDeltas_spec (evts : List SrvEvent) (acc : List Nat) :
    collectDeltas evts acc
      = acc ++ (((evts.takeWhile (fun e => e.ty != some "response.done")).filter
          (fun e => e.ty == some "response.audio.delta")).map
          (fun e => b64decode (e.delta.getD []))).flatten := by
  induction evts generalizing acc with
  | nil => simp [collectDeltas]
  | cons e rest ih =>
    by_cases hdelta : e.ty = some "response.audio.delta"
    · have hb1 : (e.ty != some "response.done") = true := by
        rw [hdelta]; decide
      have hb2 : (e.ty == some "response.audio.delta") = true := by
        rw [hdelta]; decide
      rw [List.takeWhile_cons, hb1, if_pos rfl, List.filter_cons, hb2, if_pos rfl]
      simp only [List.map_cons, List.flatten_cons]
      cases hd : e.delta with
      | none =>
        simp only [collectDeltas, hdelta, if_pos, hd]
        rw [ih]
        simp [b64decode]
      | some d =>
        by_cases hne : d = []
        · subst hne
          simp only [collectDeltas, hdelta, if_pos, hd]
          rw [if_neg (by simp)]
          rw [ih]
          simp [b64decode]
        · simp only [collectDeltas, hdelta, if_pos, hd]
          rw [if_pos hne, ih]
          simp [List.append_assoc]
    · by_cases hdone : e.ty = some "response.done"
      · have hb1 : (e.ty != some "response.done") = false := by
          rw [hdone]; decide
        rw [List.takeWhile_cons, hb1]
        simp only [collectDeltas]
        rw [if_neg hdelta, if_pos hdone]
        simp
      · have hb1 : (e.ty != some "response.done") = true := by
          cases hty : e.ty with
          | none => decide
          | some sv =>
            rw [hty] at hdone
            simp only [bne_iff_ne, ne_eq, Option.some.injEq]
            intro hcontra
            exact hdone (by rw [hcontra])
        have hb2 : (e.ty == some "response.audio.delta") = false := by
          cases hty : e.ty with
          | none => decide
          | some sv =>
            rw [hty] at hdelta
            simp only [beq_eq_false_iff_ne, ne_eq, Option.some.injEq]
            intro hcontra
            exact hdelta (by rw [hcontra])
        rw [List.takeWhile_cons, hb1, if_pos rfl, List.filter_cons, hb2]
        simp only [collectDeltas]
        rw [if_neg hdelta, if_neg hdone, ih]
        simp

/-! ### Claims about the batch relay -/

/-- C5 (amended): the batch relay transmits, after the initial
session-configuration message, exactly one input_audio_buffer.append per
frame in input order carrying the base64-encoded frame, then one
input_audio_buffer.commit and one response.create; it accumulates the
decoded bytes of the response.audio.delta events in arrival order until
the first response.done; and the /s2s reply wraps exactly those bytes in
a WAV container whose header declares 24000 Hz, mono, 16-bit, and whose
data section equals the accumulated bytes. -/
theorem claim_C5_batch_relay (frames : List (List Nat)) (inbound : List SrvEvent) :
    ((stream_to_azure_and_back frames inbound).1
       = OutMsg.sessionUpdate
           :: (frames.map (fun f => OutMsg.append (b64encode f))
               ++ [OutMsg.commit, OutMsg.responseCreate]))
    ∧ ((stream_to_azure_and_back frames inbound).2
       = (((inbound.takeWhile (fun e => e.ty != some "response.done")).filter
            (fun e => e.ty == some "response.audio.delta")).map
            (fun e => b64decode (e.delta.getD []))).flatten)
    ∧ (s2sReply frames inbound
       = pcm_to_wav (stream_to_azure_and_back frames inbound).2)
    ∧ (∀ d : List Nat,
        (pcm_to_wav d).length = 44 + d.length
        ∧ (pcm_to_wav d).drop 44 = d
        ∧ ((pcm_to_wav d).drop 22).take 2 = u16le 1
        ∧ ((pcm_to_wav d).drop 24).take 4 = u32le AUDIO_SR
        ∧ ((pcm_to_wav d).drop 34).take 2 = u16le 16) := by
  refine ⟨rfl, ?_, rfl, ?_⟩
  · have h := collectDeltas_spec inbound []
    simpa using h
  · intro d
    refine ⟨?_, rfl, rfl, rfl, rfl⟩
    simp [pcm_to_wav, u16le, u32le]
    omega

/-- C5 counterexample: the claim says the transmitted sequence is exactly
the appends, then commit, then response.create; but the relay's first
transmitted message is the session configuration, so for a one-frame
input the trace differs from the claimed one. -/
theorem claim_C5_counterexample :
    (stream_to_azure_and_back [[0, 0]] []).1
      ≠ [OutMsg.append (b64encode [0, 0]), OutMsg.commit, OutMsg.responseCreate] := by
  decide

/-- C9: a response.audio.delta event whose delta field is missing or an
empty string is skipped by the accumulation loop, so the relay's returned
buffer is unaffected by its presence. -/
theorem claim_C9_empty_delta_skipped (frames : List (List Nat))
    (pre suf : List SrvEvent) (e : SrvEvent)
    (hty : e.ty = some "response.audio.delta")
    (hd : e.delta = none ∨ e.delta = some []) :
    (stream_to_azure_and_back frames (pre ++ e :: suf)).2
      = (stream_to_azure_and_back frames (pre ++ suf)).2 := by
  simp only [stream_to_azure_and_back]
  have key : ∀ acc : List Nat,
      collectDeltas (pre ++ e :: suf) acc = collectDeltas (pre ++ suf) acc := by
    induction pre with
    | nil =>
      intro acc
      rcases hd with hd | hd <;>
        simp [collectDeltas, hty, hd]
    | cons p rest ih =>
      intro acc
      by_cases hpd : p.ty = some "response.audio.delta"
      · cases hpdelta : p.delta with
        | none => simp [collectDeltas, hpd, hpdelta, ih]
        | some d =>
          by_cases hne : d = [] <;>
            simp [collectDeltas, hpd, hpdelta, hne, ih]
      · by_cases hpdone : p.ty = some "response.done" <;>
          simp [collectDeltas, hpd, hpdone, ih]
  exact key []

theorem claim_C9_witness :
    ((⟨some "response.audio.delta", some []⟩ : SrvEvent).ty
        = some "response.audio.delta")
    ∧ ((⟨some "response.audio.delta", some []⟩ : SrvEvent).delta = none
        ∨ (⟨some "response.audio.delta", some []⟩ : SrvEvent).delta = some [])
    ∧ ((stream_to_azure_and_back []
          ([⟨some "response.audio.delta", some [65, 65, 65, 61]⟩]
            ++ (⟨some "response.audio.delta", some []⟩ : SrvEvent)
              :: [⟨some "response.done", none⟩])).2
        = (stream_to_azure_and_back []
            ([⟨some "response.audio.delta", some [65, 65, 65, 61]⟩]
              ++ [⟨some "response.done", none⟩])).2) :=
  ⟨rfl, Or.inr rfl,
    claim_C9_empty_delta_skipped [] [⟨some "response.audio.delta", some [65, 65, 65, 61]⟩]
      [⟨some "response.done", none⟩] ⟨some "response.audio.delta", some []⟩ rfl
      (Or.inr rfl)⟩

/-! ## Live relay teardown (main, azure_voice_live.py lines 340-349) -/

/-- The three concurrent activities main creates (lines 340-342). -/
inductive RelayTask
  | send
  | receive
  | keyboard
  deriving DecidableEq

/-- The return condition of a top-level wait. -/
inductive ReturnWhen
  | firstCompleted
  | allCompleted
  deriving DecidableEq

/-- The condition main passes to asyncio.wait (line 345):
return_when=asyncio.FIRST_COMPLETED. -/
def mainWaitReturnWhen : ReturnWhen := ReturnWhen.firstCompleted

/-- The tasks main calls cancel() on after the wait returns (lines
347-348): always send_task and receive_task, regardless of which task
completed first. -/
def mainCancelTargets (_first : RelayTask) : List RelayTask :=
  [RelayTask.send, RelayTask.receive]

/-- The two activities other than the given one. -/
def otherTasks (t : RelayTask) : List RelayTask :=
  [RelayTask.send, RelayTask.receive, RelayTask.keyboard].filter (fun x => x != t)

/-! ### Claims about relay teardown -/

/-- C8 (amended): main's top-level wait is configured to return as soon as
any one activity completes; main then requests cancellation of exactly the
capture and playback activities, whichever activity completed first — the
control (keyboard) activity is never among the cancelled ones — and the
playback activity's cleanup always runs the PlaybackBuffer termination on
any exit of its event loop. -/
theorem claim_C8_teardown (t : RelayTask) (msgs : List RawInbound) :
    (mainWaitReturnWhen = ReturnWhen.firstCompleted)
    ∧ (mainCancelTargets t = [RelayTask.send, RelayTask.receive])
    ∧ (RelayTask.keyboard ∉ mainCancelTargets t)
    ∧ ((receive_audio_and_playback msgs).2 = true) := by
  refine ⟨rfl, rfl, ?_, rfl⟩
  simp [mainCancelTargets]

/-- C8 counterexample: when the capture (send) activity completes first,
the keyboard activity is one of the other two, yet it is not among the
tasks main cancels — so the claim that the other two activities are then
cancelled fails. -/
theorem claim_C8_counterexample :
    RelayTask.keyboard ∈ otherTasks RelayTask.send
    ∧ RelayTask.keyboard ∉ mainCancelTargets RelayTask.send := by
  decide

end Lingu
